import Mathlib

/-!
# Verification of the giscus-bot discussion publication core

Shallow embedding of `src/core/publisher.ts` (the GitHub Discussions
publisher) and of the publication orchestration specified in §4.6 of the
design document.  Strings are modelled as lists of Unicode code points
(`List Char`); JavaScript's `String.prototype.slice`, `split("\n")[0]`,
`startsWith`, `trim` and `toLowerCase` are modelled by the corresponding
code-point operations (`drop`, `takeWhile`, a structural prefix test,
whitespace trimming at both ends, and ASCII lowercasing).

Remote GraphQL interaction is modelled by passing the remote's response
data explicitly to each operation and recording the requests an operation
issues as a trace of `RemoteCall`s; a thrown JavaScript `Error` becomes an
`Except.error` carrying the error class and message per the spec's
taxonomy (`AuthError`, `NotFoundError`).
-/

namespace GiscusBot

/-- Strings as lists of Unicode code points. -/
abbrev Str := List Char

instance {ε α : Type} [DecidableEq ε] [DecidableEq α] : DecidableEq (Except ε α) :=
  fun x y =>
    match x, y with
    | .ok a, .ok b =>
      if h : a = b then .isTrue (by rw [h]) else .isFalse (by simp [h])
    | .error a, .error b =>
      if h : a = b then .isTrue (by rw [h]) else .isFalse (by simp [h])
    | .ok _, .error _ => .isFalse (by simp)
    | .error _, .ok _ => .isFalse (by simp)

/-- Convert a Lean string literal to the code-point model. -/
def strL (s : String) : Str := s.toList

/-- Error taxonomy of §7: `auth` models the `Error` thrown by
`createClient` when no token is available; `notFound` models the `Error`
thrown by `getRepoInfo` when the category is absent.  Each carries the
thrown message. -/
inductive PublishError where
  | auth (msg : Str)
  | notFound (msg : Str)
deriving DecidableEq

/-- The remote requests an operation can issue, for tracing which
GraphQL queries/mutations a call performs. -/
inductive RemoteCall where
  | searchDiscussions
  | queryRepo
  | createDiscussionMut
  | addCommentMut
  | listCommentsQuery
deriving DecidableEq

/-- A discussion node as returned by the search query: `id`, `title`, `url`. -/
structure Discussion where
  id : Str
  title : Str
  url : Str
deriving DecidableEq

/-- A discussion category node: `id`, `name`. -/
structure Category where
  id : Str
  name : Str
deriving DecidableEq

/-- Result of `getRepoInfo`. -/
structure RepoInfo where
  repoId : Str
  categoryId : Str
deriving DecidableEq

/-- `body.startsWith(pat)`: structural code-point prefix test. -/
def startsWith : Str → Str → Bool
  | _, [] => true
  | [], _ :: _ => false
  | c :: s, p :: ps => c == p && startsWith s ps

/-- JavaScript `trim`: drop whitespace from both ends. -/
def trimStr (s : Str) : Str :=
  ((s.dropWhile Char.isWhitespace).reverse.dropWhile Char.isWhitespace).reverse

/-- ASCII lowercasing, modelling `toLowerCase`. -/
def lowerStr (s : Str) : Str := s.map Char.toLower

/-- `Array.prototype.join(", ")` over a list of names. -/
def joinComma : List Str → Str
  | [] => []
  | [x] => x
  | x :: y :: xs => x ++ strL ", " ++ joinComma (y :: xs)

/-- Message thrown by `createClient` when no token is available
(publisher.ts lines 38–40). -/
def authMsg : Str :=
  strL "GitHub token is required. Set GISCUS_BOT_GITHUB_TOKEN or pass it explicitly."

/-- `createClient(token?)` (publisher.ts lines 35–45): resolve
`token ?? process.env.GISCUS_BOT_GITHUB_TOKEN`, then throw if the result
is nullish or the empty string (JavaScript falsiness of `!authToken`).
`envToken` models the environment variable's value (`none` = unset). -/
def createClient (token envToken : Option Str) : Except PublishError Str :=
  let authToken := match token with
    | some t => some t
    | none => envToken
  match authToken with
  | none => .error (.auth authMsg)
  | some t => if t = [] then .error (.auth authMsg) else .ok t

/-- Error message of `getRepoInfo` when the category is missing
(publisher.ts lines 89–96). -/
def categoryMissMsg (categoryName : Str) (categories : List Category) : Str :=
  strL "Discussion category \"" ++ categoryName ++
    strL "\" not found. Available: " ++ joinComma (categories.map Category.name)

/-- `getRepoInfo(owner, repo, categoryName, token)` (publisher.ts lines
53–102).  The remote response is passed in as `repoId` (the repository
node id) and `categories` (the `discussionCategories.nodes` array the
server returned; the query requests `first: 25`, so the server returns at
most 25 nodes).  Finds the category case-insensitively; on a miss throws
an error enumerating the available names. -/
def getRepoInfo (token envToken : Option Str) (repoId : Str)
    (categories : List Category) (categoryName : Str) :
    Except PublishError RepoInfo × List RemoteCall :=
  match createClient token envToken with
  | .error e => (.error e, [])
  | .ok _ =>
    match categories.find? (fun c => lowerStr c.name == lowerStr categoryName) with
    | some c => (.ok ⟨repoId, c.id⟩, [.queryRepo])
    | none =>
      (.error (.notFound (categoryMissMsg categoryName categories)), [.queryRepo])

/-- The search query requests `first: 5` (publisher.ts line 129). -/
def searchWindow : Nat := 5

/-- The exact-match filter of `findDiscussion` (publisher.ts lines
142–145): the first node of the returned page whose title is
code-point-for-code-point equal to the candidate, or `none`. -/
def findDiscussionPure (nodes : List Discussion) (title : Str) :
    Option (Str × Str) :=
  match nodes.find? (fun d => d.title == title) with
  | some d => some (d.id, d.url)
  | none => none

/-- `findDiscussion(owner, repo, title, token)` (publisher.ts lines
112–146).  `ranked` models the remote's full ranked result list for the
search query; the server applies the request's `first: 5` bound, so the
client inspects `ranked.take searchWindow`. -/
def findDiscussion (token envToken : Option Str) (ranked : List Discussion)
    (title : Str) : Except PublishError (Option (Str × Str)) × List RemoteCall :=
  match createClient token envToken with
  | .error e => (.error e, [])
  | .ok _ =>
    (.ok (findDiscussionPure (ranked.take searchWindow) title), [.searchDiscussions])

/-- `createDiscussion(repoId, categoryId, title, body, token)`
(publisher.ts lines 153–181).  `created` models the `(id, url)` the
remote returns for the newly created discussion; the mutation inputs are
passed for fidelity but the result is remote-determined. -/
def createDiscussion (token envToken : Option Str) (created : Str × Str)
    (repoId categoryId title body : Str) :
    Except PublishError (Str × Str) × List RemoteCall :=
  match createClient token envToken with
  | .error e => (.error e, [])
  | .ok _ =>
    let _ := (repoId, categoryId, title, body)
    (.ok created, [.createDiscussionMut])

/-- `addComment(discussionId, body, token)` (publisher.ts lines 189–214).
`newCommentId` models the id the remote returns for the new comment. -/
def addComment (token envToken : Option Str) (newCommentId : Str)
    (discussionId body : Str) : Except PublishError Str × List RemoteCall :=
  match createClient token envToken with
  | .error e => (.error e, [])
  | .ok _ =>
    let _ := (discussionId, body)
    (.ok newCommentId, [.addCommentMut])

/-- The `" · Persona: "` separator between the label and the
persona name (publisher.ts line 257 builds
`prefix = labelPrefix + " · Persona: "`). -/
def personaSep : Str := strL " · Persona: "

/-- The comments query requests `first: 100` (publisher.ts line 245). -/
def commentsPageSize : Nat := 100

/-- One iteration of the scan (publisher.ts lines 260–267): if the body
starts with `labelPrefix ++ " · Persona: "`, take the body's first line
(`split("\n")[0]` = everything before the first newline), drop the
prefix's length (`slice(prefix.length)`), trim; yield the name when
non-empty. -/
def scanComment (pfx body : Str) : Option Str :=
  if startsWith body pfx then
    let firstLine := body.takeWhile (fun c => c != '\n')
    let name := trimStr (firstLine.drop pfx.length)
    if name = [] then none else some name
  else none

/-- `Set.add`: append the name unless already present (membership is the
`Set<string>` semantics the scan relies on). -/
def scanAdd (acc : List Str) (name : Str) : List Str :=
  if name ∈ acc then acc else acc ++ [name]

/-- The loop body of `getDiscussionBotComments` (publisher.ts 259–268). -/
def scanStep (pfx : Str) (acc : List Str) (body : Str) : List Str :=
  match scanComment pfx body with
  | some name => scanAdd acc name
  | none => acc

/-- The pure scan of `getDiscussionBotComments` over the comment page the
server returned (publisher.ts lines 256–270). -/
def scanComments (nodes : List Str) (labelPfx : Str) : List Str :=
  nodes.foldl (scanStep (labelPfx ++ personaSep)) []

/-- `getDiscussionBotComments(discussionId, labelPrefix, token)`
(publisher.ts lines 228–271).  `allComments` models the discussion's full
comment list in the remote's default order; the query's `first: 100`
bound means the client scans only `allComments.take commentsPageSize`. -/
def getDiscussionBotComments (token envToken : Option Str)
    (allComments : List Str) (labelPfx : Str) :
    Except PublishError (List Str) × List RemoteCall :=
  match createClient token envToken with
  | .error e => (.error e, [])
  | .ok _ =>
    (.ok (scanComments (allComments.take commentsPageSize) labelPfx),
      [.listCommentsQuery])

/-- The remote state one `findOrCreateDiscussion` call observes:
the ranked search results for the title query, the repository id and
category page the repo query returns, and the `(id, url)` the create
mutation would return. -/
structure Remote where
  searchResults : List Discussion
  repoId : Str
  categories : List Category
  createdId : Str
  createdUrl : Str

/-- `findOrCreateDiscussion(owner, repo, categoryName, title, body,
token)` (publisher.ts lines 286–303): locate first; if found return its
`(id, url)`; otherwise resolve the repository/category and create. -/
def findOrCreateDiscussion (token envToken : Option Str) (remote : Remote)
    (categoryName title body : Str) :
    Except PublishError (Str × Str) × List RemoteCall :=
  match findDiscussion token envToken remote.searchResults title with
  | (.error e, tr) => (.error e, tr)
  | (.ok (some existing), tr) => (.ok existing, tr)
  | (.ok none, tr) =>
    match getRepoInfo token envToken remote.repoId remote.categories categoryName with
    | (.error e, tr2) => (.error e, tr ++ tr2)
    | (.ok info, tr2) =>
      match createDiscussion token envToken (remote.createdId, remote.createdUrl)
          info.repoId info.categoryId title body with
      | (.error e, tr3) => (.error e, tr ++ tr2 ++ tr3)
      | (.ok d, tr3) => (.ok d, tr ++ tr2 ++ tr3)

/-- Modelled from the spec: the Comment Writer body format of §4.5 and
§6 — `"<labelPrefix> · Persona: <personaName>\n\n<text>"`.  The formatting
code lives in the generator module, which is not among the provided
source files. -/
def wireBody (labelPfx name text : Str) : Str :=
  labelPfx ++ personaSep ++ name ++ strL "\n\n" ++ text

/-- Result of the per-persona publication loop: personas published,
personas skipped, and the Comment Writer calls issued, each tagged with
the persona it was issued for. -/
structure LoopResult where
  published : List Str
  skipped : List Str
  writes : List (Str × Str)
deriving DecidableEq

/-- Modelled from the spec: step 3 of §4.6 — for each persona in the
request, in the caller-supplied order, skip it when it is in the scanned
set, else write one wire-format comment for it.  The orchestration module
(generator) is not among the provided source files. -/
def publishLoop (scanned : List Str) (labelPfx : Str) :
    List (Str × Str) → LoopResult
  | [] => ⟨[], [], []⟩
  | (name, text) :: rest =>
    let r := publishLoop scanned labelPfx rest
    if name ∈ scanned then ⟨r.published, name :: r.skipped, r.writes⟩
    else
      ⟨name :: r.published, r.skipped,
        (name, wireBody labelPfx name text) :: r.writes⟩

/-- The outcome the orchestrator reports (§4.6 step 4 / §6's
`findOrCreateAndPublish` boundary). -/
structure PublishOutcome where
  discussionId : Str
  discussionUrl : Str
  published : List Str
  skipped : List Str
  writes : List (Str × Str)
deriving DecidableEq

/-- Modelled from the spec: `findOrCreateAndPublish` (§4.6, §6) — the
orchestration module (generator) is not among the provided source files.
Locate-or-create via `findOrCreateDiscussion`, scan via
`getDiscussionBotComments`, then one Comment Writer call per requested
persona not in the scanned set.  `personas` pairs each persona name with
its drafted comment text. -/
def findOrCreateAndPublish (token envToken : Option Str) (remote : Remote)
    (allComments : List Str) (categoryName title body labelPfx : Str)
    (personas : List (Str × Str)) :
    Except PublishError PublishOutcome × List RemoteCall :=
  match findOrCreateDiscussion token envToken remote categoryName title body with
  | (.error e, tr) => (.error e, tr)
  | (.ok (discId, discUrl), tr) =>
    match getDiscussionBotComments token envToken allComments labelPfx with
    | (.error e, tr2) => (.error e, tr ++ tr2)
    | (.ok scanned, tr2) =>
      let r := publishLoop scanned labelPfx personas
      (.ok ⟨discId, discUrl, r.published, r.skipped, r.writes⟩,
        tr ++ tr2 ++ r.writes.map (fun _ => RemoteCall.addCommentMut))

/-- `sub` occurs contiguously inside `s`. -/
def containsStr (s sub : Str) : Prop := ∃ a b, s = a ++ sub ++ b

theorem createClient_some (t : Str) (ht : t ≠ []) (envToken : Option Str) :
    createClient (some t) envToken = .ok t := by
  simp [createClient, ht]

theorem startsWith_append (p s : Str) : startsWith (p ++ s) p = true := by
  induction p with
  | nil => cases s <;> rfl
  | cons c cs ih => simp [startsWith, ih]

theorem scanComment_eq_some_iff (pfx b p : Str) :
    scanComment pfx b = some p ↔
      startsWith b pfx = true ∧
      trimStr ((b.takeWhile (fun c => c != '\n')).drop pfx.length) = p ∧
      p ≠ [] := by
  unfold scanComment
  by_cases h1 : startsWith b pfx
  · simp only [if_pos h1]
    by_cases h2 : trimStr ((b.takeWhile (fun c => c != '\n')).drop pfx.length) = []
    · simp only [h2, if_pos rfl]
      constructor
      · intro h; cases h
      · rintro ⟨_, rfl, hp⟩; exact absurd rfl hp
    · simp only [if_neg h2, Option.some.injEq]
      constructor
      · intro h; exact ⟨h1, h, h ▸ h2⟩
      · rintro ⟨_, h, _⟩; exact h
  · simp [h1]

theorem mem_scanAdd (acc : List Str) (n p : Str) :
    p ∈ scanAdd acc n ↔ p ∈ acc ∨ p = n := by
  unfold scanAdd
  by_cases h : n ∈ acc
  · simp only [if_pos h]
    constructor
    · exact Or.inl
    · rintro (hp | rfl) <;> [exact hp; exact h]
  · simp [if_neg h]

theorem mem_scanStep (pfx : Str) (acc : List Str) (b p : Str) :
    p ∈ scanStep pfx acc b ↔ p ∈ acc ∨ scanComment pfx b = some p := by
  unfold scanStep
  cases h : scanComment pfx b with
  | none => simp
  | some n =>
    simp only [mem_scanAdd, Option.some.injEq]
    constructor
    · rintro (hp | rfl) <;> [exact Or.inl hp; exact Or.inr rfl]
    · rintro (hp | rfl) <;> [exact Or.inl hp; exact Or.inr rfl]

theorem mem_foldl_scanStep (pfx p : Str) :
    ∀ (nodes : List Str) (acc : List Str),
      p ∈ nodes.foldl (scanStep pfx) acc ↔
        p ∈ acc ∨ ∃ b ∈ nodes, scanComment pfx b = some p := by
  intro nodes
  induction nodes with
  | nil => simp
  | cons b bs ih =>
    intro acc
    simp only [List.foldl_cons, ih, mem_scanStep, List.mem_cons]
    constructor
    · rintro ((hp | hb) | ⟨c, hc, hcp⟩)
      · exact Or.inl hp
      · exact Or.inr ⟨b, Or.inl rfl, hb⟩
      · exact Or.inr ⟨c, Or.inr hc, hcp⟩
    · rintro (hp | ⟨c, (rfl | hc), hcp⟩)
      · exact Or.inl (Or.inl hp)
      · exact Or.inl (Or.inr hcp)
      · exact Or.inr ⟨c, hc, hcp⟩

theorem mem_scanComments (nodes : List Str) (labelPfx p : Str) :
    p ∈ scanComments nodes labelPfx ↔
      ∃ b ∈ nodes, scanComment (labelPfx ++ personaSep) b = some p := by
  simp [scanComments, mem_foldl_scanStep]

theorem newline_not_mem_personaSep : '\n' ∉ personaSep := by decide

theorem takeWhile_append_newline (a rest : Str) (h : '\n' ∉ a) :
    (a ++ '\n' :: rest).takeWhile (fun c => c != '\n') = a := by
  rw [List.takeWhile_append_of_pos]
  · simp [List.takeWhile_cons]
  · intro c hc
    simp only [bne_iff_ne, ne_eq]
    rintro rfl; exact h hc

theorem scanComment_wireBody (labelPfx p text : Str) (hpfx : '\n' ∉ labelPfx)
    (hp1 : p ≠ []) (hp2 : '\n' ∉ p) (hp3 : trimStr p = p) :
    scanComment (labelPfx ++ personaSep) (wireBody labelPfx p text) = some p := by
  have hshape : wireBody labelPfx p text
      = ((labelPfx ++ personaSep) ++ p) ++ '\n' :: ('\n' :: text) := by
    simp [wireBody, strL]
  have hsw : startsWith (wireBody labelPfx p text) (labelPfx ++ personaSep) = true := by
    have : wireBody labelPfx p text
        = (labelPfx ++ personaSep) ++ (p ++ '\n' :: ('\n' :: text)) := by
      simpa [List.append_assoc] using hshape
    rw [this]; exact startsWith_append _ _
  have hfl : (wireBody labelPfx p text).takeWhile (fun c => c != '\n')
      = (labelPfx ++ personaSep) ++ p := by
    rw [hshape, takeWhile_append_newline]
    intro hmem
    rcases List.mem_append.mp hmem with hmem | hmem
    · rcases List.mem_append.mp hmem with hmem | hmem
      · exact hpfx hmem
      · exact newline_not_mem_personaSep hmem
    · exact hp2 hmem
  rw [scanComment_eq_some_iff]
  refine ⟨hsw, ?_, hp1⟩
  rw [hfl, List.drop_left, hp3]

/-- C3.  Prefix-boundary parsing: a persona name `p` is in the scanner's
result set for a comment page `nodes` and label prefix `labelPfx` if and
only if some comment body on the page starts with exactly
`labelPfx ++ " · Persona: "` and the remainder of the body's first line
(everything before the first newline, with the prefix's length dropped),
after trimming surrounding whitespace, equals `p` and is non-empty; every
comment not matching this exact prefix format contributes nothing. -/
theorem scanner_prefix_boundary (nodes : List Str) (labelPfx p : Str) :
    p ∈ scanComments nodes labelPfx ↔
      ∃ body ∈ nodes,
        startsWith body (labelPfx ++ personaSep) = true ∧
        trimStr ((body.takeWhile (fun c => c != '\n')).drop
          (labelPfx ++ personaSep).length) = p ∧
        p ≠ [] := by
  rw [mem_scanComments]
  constructor
  · rintro ⟨b, hb, hscan⟩
    exact ⟨b, hb, (scanComment_eq_some_iff _ _ _).mp hscan⟩
  · rintro ⟨b, hb, hcond⟩
    exact ⟨b, hb, (scanComment_eq_some_iff _ _ _).mpr hcond⟩

/-- C4 (counterexample).  The claim quantifies over every label prefix,
but a label prefix containing a newline breaks the round trip: with
labelPrefix `"A\nB"`, persona `"X"` (non-empty, single-line, no
surrounding whitespace) and text `"t"`, the wire-format comment
`"A\nB · Persona: X\n\nt"` passes the `startsWith` test yet its first
line is `"A"`, so slicing off the prefix length leaves the empty string
and the scanner adds nothing: the result set is empty rather than
`{"X"}`. -/
theorem scanner_roundtrip_newline_prefix_cex :
    strL "X" ≠ [] ∧ '\n' ∉ strL "X" ∧ trimStr (strL "X") = strL "X" ∧
    wireBody (strL "A\nB") (strL "X") (strL "t") = strL "A\nB · Persona: X\n\nt" ∧
    scanComments [wireBody (strL "A\nB") (strL "X") (strL "t")] (strL "A\nB") = [] := by
  decide

/-- C4 (amended).  Round-trip of the comment wire format, for every
*newline-free* label prefix: for every persona name that is non-empty,
single-line and free of surrounding whitespace, and every comment text,
scanning the single comment `"<labelPfx> · Persona: <p>\n\n<text>"` with
that same label prefix yields exactly the set `{p}`. -/
theorem scanner_roundtrip (labelPfx p text : Str) (hpfx : '\n' ∉ labelPfx)
    (hp1 : p ≠ []) (hp2 : '\n' ∉ p) (hp3 : trimStr p = p) :
    scanComments [wireBody labelPfx p text] labelPfx = [p] := by
  simp [scanComments, scanStep,
    scanComment_wireBody labelPfx p text hpfx hp1 hp2 hp3, scanAdd]

/-- Witness for C4's amended theorem at the spec's own example: label
prefix `"🤖 **AI-Generated Comment**"`, persona `"Curious Reader"`,
text `"Great post!"`. -/
theorem scanner_roundtrip_witness :
    scanComments
      [wireBody (strL "🤖 **AI-Generated Comment**") (strL "Curious Reader")
        (strL "Great post!")]
      (strL "🤖 **AI-Generated Comment**") = [strL "Curious Reader"] :=
  scanner_roundtrip (strL "🤖 **AI-Generated Comment**") (strL "Curious Reader")
    (strL "Great post!") (by decide) (by decide) (by decide) (by decide)

/-- C1.  Idempotent discovery: with a valid token, whenever the
Discussion Locator (`findDiscussion`) finds an existing discussion for
the title, `findOrCreateDiscussion` returns exactly that discussion's
`(id, url)` and its remote trace is the single search query — in
particular it issues no create-discussion mutation and no
repository/category resolution query.  `findOrCreateDiscussion` is a
pure function of the remote state, so a second call over the same remote
state returns the same discussion id (the final conjunct states the
repeated call's result explicitly). -/
theorem idempotent_discovery (t : Str) (ht : t ≠ []) (remote : Remote)
    (categoryName title body : Str) (found : Str × Str)
    (h : (findDiscussion (some t) none remote.searchResults title).1
      = .ok (some found)) :
    findOrCreateDiscussion (some t) none remote categoryName title body
      = (.ok found, [RemoteCall.searchDiscussions]) ∧
    RemoteCall.createDiscussionMut ∉
      (findOrCreateDiscussion (some t) none remote categoryName title body).2 ∧
    RemoteCall.queryRepo ∉
      (findOrCreateDiscussion (some t) none remote categoryName title body).2 ∧
    (findOrCreateDiscussion (some t) none remote categoryName title body).1
      = .ok found := by
  have hfd : findDiscussion (some t) none remote.searchResults title
      = (.ok (findDiscussionPure (remote.searchResults.take searchWindow) title),
        [RemoteCall.searchDiscussions]) := by
    simp [findDiscussion, createClient_some t ht]
  have hpure : findDiscussionPure (remote.searchResults.take searchWindow) title
      = some found := by
    rw [hfd] at h
    simpa using h
  have hmain : findOrCreateDiscussion (some t) none remote categoryName title body
      = (.ok found, [RemoteCall.searchDiscussions]) := by
    simp [findOrCreateDiscussion, hfd, hpure]
  refine ⟨hmain, ?_, ?_, ?_⟩ <;> rw [hmain] <;> simp

/-- Witness for C1: a remote whose search results contain the exact
title; the orchestration reuses it and issues only the search query. -/
theorem idempotent_discovery_witness :
    findOrCreateDiscussion (some (strL "tok")) none
      ⟨[⟨strL "d1", strL "My Post", strL "u1"⟩], strL "R", [], strL "new", strL "newu"⟩
      (strL "General") (strL "My Post") (strL "b")
      = (.ok (strL "d1", strL "u1"), [RemoteCall.searchDiscussions]) :=
  (idempotent_discovery (strL "tok") (by decide)
    ⟨[⟨strL "d1", strL "My Post", strL "u1"⟩], strL "R", [], strL "new", strL "newu"⟩
    (strL "General") (strL "My Post") (strL "b") (strL "d1", strL "u1")
    (by decide)).1

/-- C2.  Exact-title filtering: the Discussion Locator's filter returns a
discussion only when that discussion's title is code-point-for-code-point
equal to the candidate (first conjunct), and on the spec's example —
search results titled `"My Post"` and `"My Post 2"`, candidate
`"My Post"` — it returns exactly the first (second conjunct); the
`"My Post 2"` result alone yields no match (third conjunct). -/
theorem exact_title_filtering :
    (∀ (nodes : List Discussion) (title : Str) (r : Str × Str),
        findDiscussionPure nodes title = some r →
          ∃ d ∈ nodes, d.title = title ∧ r = (d.id, d.url)) ∧
    findDiscussionPure
      [⟨strL "1", strL "My Post", strL "u1"⟩,
       ⟨strL "2", strL "My Post 2", strL "u2"⟩]
      (strL "My Post") = some (strL "1", strL "u1") ∧
    findDiscussionPure [⟨strL "2", strL "My Post 2", strL "u2"⟩]
      (strL "My Post") = none := by
  refine ⟨?_, by decide, by decide⟩
  intro nodes title r h
  unfold findDiscussionPure at h
  cases hf : nodes.find? (fun d => d.title == title) with
  | none => rw [hf] at h; cases h
  | some d =>
    rw [hf] at h
    refine ⟨d, List.mem_of_find?_eq_some hf, ?_, ?_⟩
    · have := List.find?_some hf
      simpa using this
    · exact (Option.some.inj h).symm

/-- Witness for C2: the universally quantified conjunct applied at the
spec's example input. -/
theorem exact_title_filtering_witness :
    ∃ d ∈ [(⟨strL "1", strL "My Post", strL "u1"⟩ : Discussion),
           ⟨strL "2", strL "My Post 2", strL "u2"⟩],
      d.title = strL "My Post" ∧ (strL "1", strL "u1") = (d.id, d.url) :=
  exact_title_filtering.1
    [⟨strL "1", strL "My Post", strL "u1"⟩, ⟨strL "2", strL "My Post 2", strL "u2"⟩]
    (strL "My Post") (strL "1", strL "u1") (by decide)

/-- C8.  Locator never errors on a miss: with a valid token, for every
ranked search-result list containing no exact title match, the Discussion
Locator returns the explicit "not found" value `none` (not an error), so
the caller can branch to creation. -/
theorem locator_miss_returns_none (t : Str) (ht : t ≠ [])
    (ranked : List Discussion) (title : Str)
    (h : ∀ d ∈ ranked, d.title ≠ title) :
    findDiscussion (some t) none ranked title
      = (.ok none, [RemoteCall.searchDiscussions]) := by
  have hnone : findDiscussionPure (ranked.take searchWindow) title = none := by
    unfold findDiscussionPure
    have hf : (ranked.take searchWindow).find? (fun d => d.title == title)
        = none := by
      rw [List.find?_eq_none]
      intro d hd
      simpa using h d (List.take_subset _ _ hd)
    rw [hf]
  simp [findDiscussion, createClient_some t ht, hnone]

/-- Witness for C8: a search result with a near-miss title only. -/
theorem locator_miss_returns_none_witness :
    findDiscussion (some (strL "tok")) none
      [⟨strL "2", strL "My Post 2", strL "u2"⟩] (strL "My Post")
      = (.ok none, [RemoteCall.searchDiscussions]) :=
  locator_miss_returns_none (strL "tok") (by decide)
    [⟨strL "2", strL "My Post 2", strL "u2"⟩] (strL "My Post") (by decide)

theorem joinComma_contains (l : List Str) (y : Str) (hy : y ∈ l) :
    containsStr (joinComma l) y := by
  induction l with
  | nil => cases hy
  | cons x xs ih =>
    rcases List.mem_cons.mp hy with rfl | hmem
    · cases xs with
      | nil => exact ⟨[], [], by simp [joinComma]⟩
      | cons z zs => exact ⟨[], strL ", " ++ joinComma (z :: zs), by simp [joinComma]⟩
    · obtain ⟨a, b, hab⟩ := ih hmem
      cases xs with
      | nil => cases hmem
      | cons z zs =>
        exact ⟨x ++ strL ", " ++ a, b, by simp [joinComma, hab]⟩

/-- C6.  Category miss: with a valid token, whenever no category on the
returned page matches the requested name (case-insensitively), the
Repository Resolver fails with the not-found error, and the error's
message contains every available category's name. -/
theorem category_miss_enumerates (t : Str) (ht : t ≠ []) (repoId : Str)
    (categories : List Category) (categoryName : Str)
    (h : ∀ c ∈ categories, lowerStr c.name ≠ lowerStr categoryName) :
    ∃ msg,
      getRepoInfo (some t) none repoId categories categoryName
        = (.error (.notFound msg), [RemoteCall.queryRepo]) ∧
      ∀ c ∈ categories, containsStr msg c.name := by
  refine ⟨categoryMissMsg categoryName categories, ?_, ?_⟩
  · have hf : categories.find?
        (fun c => lowerStr c.name == lowerStr categoryName) = none := by
      rw [List.find?_eq_none]
      intro c hc
      simpa using h c hc
    simp [getRepoInfo, createClient_some t ht, hf]
  · intro c hc
    obtain ⟨a, b, hab⟩ :=
      joinComma_contains (categories.map Category.name) c.name
        (List.mem_map_of_mem Category.name hc)
    exact ⟨strL "Discussion category \"" ++ categoryName ++
      strL "\" not found. Available: " ++ a, b,
      by simp [categoryMissMsg, hab]⟩

/-- Witness for C6 at the spec's example: requesting `"Nonexistent"`
when available categories are `"General"` and `"Blog Comments"` fails
with a message containing both names. -/
theorem category_miss_enumerates_witness :
    ∃ msg,
      getRepoInfo (some (strL "tok")) none (strL "R")
        [⟨strL "c1", strL "General"⟩, ⟨strL "c2", strL "Blog Comments"⟩]
        (strL "Nonexistent")
        = (.error (.notFound msg), [RemoteCall.queryRepo]) ∧
      ∀ c ∈ [(⟨strL "c1", strL "General"⟩ : Category),
             ⟨strL "c2", strL "Blog Comments"⟩],
        containsStr msg c.name :=
  category_miss_enumerates (strL "tok") (by decide) (strL "R")
    [⟨strL "c1", strL "General"⟩, ⟨strL "c2", strL "Blog Comments"⟩]
    (strL "Nonexistent") (by decide)

/-- C7.  Case-insensitive category resolution: with a valid token,
whenever some category on the returned page has a name equal to the
requested one up to lowercasing, the Repository Resolver succeeds,
returning the repository id and the id of a category whose name so
matches. -/
theorem category_case_insensitive (t : Str) (ht : t ≠ []) (repoId : Str)
    (categories : List Category) (categoryName : Str)
    (h : ∃ c ∈ categories, lowerStr c.name = lowerStr categoryName) :
    ∃ info c,
      (getRepoInfo (some t) none repoId categories categoryName).1 = .ok info ∧
      c ∈ categories ∧ lowerStr c.name = lowerStr categoryName ∧
      info.repoId = repoId ∧ info.categoryId = c.id := by
  cases hf : categories.find?
      (fun c => lowerStr c.name == lowerStr categoryName) with
  | none =>
    exfalso
    obtain ⟨c, hc, hcn⟩ := h
    exact absurd (by simpa using hcn) (List.find?_eq_none.mp hf c hc)
  | some c =>
    refine ⟨⟨repoId, c.id⟩, c, ?_, List.mem_of_find?_eq_some hf, ?_, rfl, rfl⟩
    · simp [getRepoInfo, createClient_some t ht, hf]
    · simpa using List.find?_some hf

/-- Witness for C7: category named `"GENERAL"` resolves a request for
`"general"`. -/
theorem category_case_insensitive_witness :
    ∃ info c,
      (getRepoInfo (some (strL "tok")) none (strL "R")
        [⟨strL "c1", strL "GENERAL"⟩] (strL "general")).1 = .ok info ∧
      c ∈ [(⟨strL "c1", strL "GENERAL"⟩ : Category)] ∧
      lowerStr c.name = lowerStr (strL "general") ∧
      info.repoId = strL "R" ∧ info.categoryId = c.id :=
  category_case_insensitive (strL "tok") (by decide) (strL "R")
    [⟨strL "c1", strL "GENERAL"⟩] (strL "general") (by decide)

/-- C9.  Missing credential is fatal at client construction: with no
explicit token and the `GISCUS_BOT_GITHUB_TOKEN` environment variable
unset, every core operation (resolve, locate, create discussion, add
comment, scan comments) fails with the auth error and issues no remote
request (its trace is empty); and whenever either source supplies a
non-empty token, client construction succeeds with that token. -/
theorem missing_credential_fatal :
    (∀ repoId categories categoryName,
        getRepoInfo none none repoId categories categoryName
          = (.error (.auth authMsg), [])) ∧
    (∀ ranked title,
        findDiscussion none none ranked title = (.error (.auth authMsg), [])) ∧
    (∀ created repoId categoryId title body,
        createDiscussion none none created repoId categoryId title body
          = (.error (.auth authMsg), [])) ∧
    (∀ newCommentId discussionId body,
        addComment none none newCommentId discussionId body
          = (.error (.auth authMsg), [])) ∧
    (∀ allComments labelPfx,
        getDiscussionBotComments none none allComments labelPfx
          = (.error (.auth authMsg), [])) ∧
    (∀ (tk : Str) (envToken : Option Str), tk ≠ [] →
        createClient (some tk) envToken = .ok tk) ∧
    (∀ tk : Str, tk ≠ [] → createClient none (some tk) = .ok tk) := by
  refine ⟨?_, ?_, ?_, ?_, ?_, ?_, ?_⟩ <;>
    intros <;>
    simp [getRepoInfo, findDiscussion, createDiscussion, addComment,
      getDiscussionBotComments, createClient, *]

/-- Witness for C9: both halves at concrete inputs — the resolver with
no token at all fails with the auth error and an empty trace, and an
explicit token `"x"` (resp. an environment token `"y"`) constructs a
client. -/
theorem missing_credential_fatal_witness :
    getRepoInfo none none (strL "R") [] (strL "General")
      = (.error (.auth authMsg), []) ∧
    createClient (some (strL "x")) none = .ok (strL "x") ∧
    createClient none (some (strL "y")) = .ok (strL "y") :=
  ⟨missing_credential_fatal.1 (strL "R") [] (strL "General"),
   missing_credential_fatal.2.2.2.2.2.1 (strL "x") none (by decide),
   missing_credential_fatal.2.2.2.2.2.2 (strL "y") (by decide)⟩

/-- C10.  Implicit search-window bound: the search query requests (and
the Locator therefore inspects) only the first `searchWindow = 5` ranked
results.  With a valid token and a resolvable category, if the exact
title match exists in the remote's ranked results but not among the top
five, the Locator returns "not found" and the orchestration goes on to
issue a create-discussion mutation — creating a duplicate discussion. -/
theorem search_window_bound (t : Str) (ht : t ≠ []) (remote : Remote)
    (categoryName title body : Str)
    (hmiss : ∀ d ∈ remote.searchResults.take searchWindow, d.title ≠ title)
    (_hbeyond : ∃ d ∈ remote.searchResults, d.title = title)
    (hcat : ∃ c ∈ remote.categories, lowerStr c.name = lowerStr categoryName) :
    searchWindow = 5 ∧
    (findDiscussion (some t) none remote.searchResults title).1 = .ok none ∧
    (findOrCreateDiscussion (some t) none remote categoryName title body).1
      = .ok (remote.createdId, remote.createdUrl) ∧
    RemoteCall.createDiscussionMut ∈
      (findOrCreateDiscussion (some t) none remote categoryName title body).2 := by
  have hnone : findDiscussionPure (remote.searchResults.take searchWindow) title
      = none := by
    have hf : (remote.searchResults.take searchWindow).find?
        (fun d => d.title == title) = none := by
      rw [List.find?_eq_none]
      intro d hd
      simpa using hmiss d hd
    simp [findDiscussionPure, hf]
  have hfd : findDiscussion (some t) none remote.searchResults title
      = (.ok none, [RemoteCall.searchDiscussions]) := by
    simp [findDiscussion, createClient_some t ht, hnone]
  cases hf2 : remote.categories.find?
      (fun c => lowerStr c.name == lowerStr categoryName) with
  | none =>
    exfalso
    obtain ⟨c, hc, hcn⟩ := hcat
    exact absurd (by simpa using hcn) (List.find?_eq_none.mp hf2 c hc)
  | some c =>
    have hrepo : getRepoInfo (some t) none remote.repoId remote.categories
        categoryName = (.ok ⟨remote.repoId, c.id⟩, [RemoteCall.queryRepo]) := by
      simp [getRepoInfo, createClient_some t ht, hf2]
    have hmain : findOrCreateDiscussion (some t) none remote categoryName title body
        = (.ok (remote.createdId, remote.createdUrl),
          [RemoteCall.searchDiscussions, RemoteCall.queryRepo,
            RemoteCall.createDiscussionMut]) := by
      simp [findOrCreateDiscussion, hfd, hrepo, createDiscussion,
        createClient_some t ht]
    exact ⟨rfl, by rw [hfd], by rw [hmain], by rw [hmain]; simp⟩

/-- Witness for C10: six ranked results whose only exact match sits at
position six; the orchestration creates a new discussion. -/
theorem search_window_bound_witness :
    (findOrCreateDiscussion (some (strL "tok")) none
      ⟨[⟨strL "1", strL "T 1", strL "u"⟩, ⟨strL "2", strL "T 2", strL "u"⟩,
        ⟨strL "3", strL "T 3", strL "u"⟩, ⟨strL "4", strL "T 4", strL "u"⟩,
        ⟨strL "5", strL "T 5", strL "u"⟩, ⟨strL "6", strL "T", strL "u6"⟩],
        strL "R", [⟨strL "c1", strL "General"⟩], strL "dup", strL "dupu"⟩
      (strL "General") (strL "T") (strL "b")).1
      = .ok (strL "dup", strL "dupu") ∧
    RemoteCall.createDiscussionMut ∈
      (findOrCreateDiscussion (some (strL "tok")) none
        ⟨[⟨strL "1", strL "T 1", strL "u"⟩, ⟨strL "2", strL "T 2", strL "u"⟩,
          ⟨strL "3", strL "T 3", strL "u"⟩, ⟨strL "4", strL "T 4", strL "u"⟩,
          ⟨strL "5", strL "T 5", strL "u"⟩, ⟨strL "6", strL "T", strL "u6"⟩],
          strL "R", [⟨strL "c1", strL "General"⟩], strL "dup", strL "dupu"⟩
        (strL "General") (strL "T") (strL "b")).2 :=
  ⟨(search_window_bound (strL "tok") (by decide) _ (strL "General") (strL "T")
      (strL "b") (by decide) (by decide) (by decide)).2.2.1,
   (search_window_bound (strL "tok") (by decide) _ (strL "General") (strL "T")
      (strL "b") (by decide) (by decide) (by decide)).2.2.2⟩

theorem publishLoop_skip_mem (scanned : List Str) (labelPfx p : Str)
    (personas : List (Str × Str)) (hscan : p ∈ scanned)
    (hreq : p ∈ personas.map Prod.fst) :
    p ∈ (publishLoop scanned labelPfx personas).skipped := by
  induction personas with
  | nil => cases hreq
  | cons pt rest ih =>
    obtain ⟨name, text⟩ := pt
    rcases List.mem_cons.mp hreq with rfl | hmem
    · simp only [publishLoop, if_pos hscan]
      exact List.mem_cons_self _ _
    · by_cases hn : name ∈ scanned
      · simp only [publishLoop, if_pos hn]
        exact List.mem_cons_of_mem _ (ih hmem)
      · simp only [publishLoop, if_neg hn]
        exact ih hmem

theorem publishLoop_pub_not_mem (scanned : List Str) (labelPfx p : Str)
    (personas : List (Str × Str)) (hscan : p ∈ scanned) :
    p ∉ (publishLoop scanned labelPfx personas).published := by
  induction personas with
  | nil => simp [publishLoop]
  | cons pt rest ih =>
    obtain ⟨name, text⟩ := pt
    by_cases hn : name ∈ scanned
    · simpa only [publishLoop, if_pos hn] using ih
    · simp only [publishLoop, if_neg hn, List.mem_cons]
      rintro (rfl | hmem)
      · exact hn hscan
      · exact ih hmem

theorem publishLoop_writes_not_scanned (scanned : List Str) (labelPfx : Str)
    (personas : List (Str × Str)) :
    ∀ w ∈ (publishLoop scanned labelPfx personas).writes, w.1 ∉ scanned := by
  induction personas with
  | nil => simp [publishLoop]
  | cons pt rest ih =>
    obtain ⟨name, text⟩ := pt
    by_cases hn : name ∈ scanned
    · simpa only [publishLoop, if_pos hn] using ih
    · simp only [publishLoop, if_neg hn, List.mem_cons]
      rintro w (rfl | hmem)
      · exact hn
      · exact ih w hmem

/-- C5 (counterexample).  The claim quantifies over every (discussion,
persona) pair with an existing labeled BotComment, but two degenerate
families break it.  First conjunct block: with label prefix `"A\nB"`,
persona `"X"` (non-empty, single-line, no surrounding whitespace) has a
wire-format BotComment `"A\nB · Persona: X\n\nt"` on the fetched page,
yet the scanner's set is empty (the first line is cut at the prefix's
newline), so the run publishes `"X"` again — `published = ["X"]`,
`skipped = []` — and issues a Comment Writer call for it.  Second block:
with the newline-free label prefix `"B"`, persona `" X "` (surrounding
whitespace) has the BotComment `"B · Persona:  X \n\nt"` on the page,
but the scanner stores the trimmed `"X"`, so requesting `" X "`
publishes it again instead of skipping it. -/
theorem no_duplicate_persona_comments_cex :
    wireBody (strL "A\nB") (strL "X") (strL "t")
      ∈ [wireBody (strL "A\nB") (strL "X") (strL "t")].take commentsPageSize ∧
    strL "X" ∉ scanComments
      ([wireBody (strL "A\nB") (strL "X") (strL "t")].take commentsPageSize)
      (strL "A\nB") ∧
    (findOrCreateAndPublish (some (strL "tok")) none
      ⟨[⟨strL "d1", strL "T", strL "u1"⟩], strL "R", [], strL "n", strL "nu"⟩
      [wireBody (strL "A\nB") (strL "X") (strL "t")]
      (strL "G") (strL "T") (strL "b") (strL "A\nB")
      [(strL "X", strL "hi")]).1
      = .ok ⟨strL "d1", strL "u1", [strL "X"], [],
          [(strL "X", wireBody (strL "A\nB") (strL "X") (strL "hi"))]⟩ ∧
    wireBody (strL "B") (strL " X ") (strL "t")
      ∈ [wireBody (strL "B") (strL " X ") (strL "t")].take commentsPageSize ∧
    strL " X " ∉ scanComments
      ([wireBody (strL "B") (strL " X ") (strL "t")].take commentsPageSize)
      (strL "B") ∧
    (findOrCreateAndPublish (some (strL "tok")) none
      ⟨[⟨strL "d1", strL "T", strL "u1"⟩], strL "R", [], strL "n", strL "nu"⟩
      [wireBody (strL "B") (strL " X ") (strL "t")]
      (strL "G") (strL "T") (strL "b") (strL "B")
      [(strL " X ", strL "hi")]).1
      = .ok ⟨strL "d1", strL "u1", [strL " X "], [],
          [(strL " X ", wireBody (strL "B") (strL " X ") (strL "hi"))]⟩ := by
  decide

/-- C5 (amended).  No duplicate persona comments, for every
*newline-free* label prefix and every persona name that is non-empty,
single-line and free of surrounding whitespace: with a valid token, when
the fetched comment page already holds a wire-format BotComment for such
a persona `p` and `p` is among the requested personas, any successful
publication run places `p` in `skipped`, never in `published`, and
issues no Comment Writer call for `p`; equivalently, the scanner's
returned set contains `p` (orchestration per §4.6, modelled from the
spec since the generator module is not among the provided sources). -/
theorem no_duplicate_persona_comments (t : Str) (ht : t ≠ []) (remote : Remote)
    (allComments : List Str) (categoryName title body labelPfx p text : Str)
    (personas : List (Str × Str)) (outcome : PublishOutcome)
    (hmem : wireBody labelPfx p text ∈ allComments.take commentsPageSize)
    (hpfx : '\n' ∉ labelPfx) (hp1 : p ≠ []) (hp2 : '\n' ∉ p)
    (hp3 : trimStr p = p) (hreq : p ∈ personas.map Prod.fst)
    (hok : (findOrCreateAndPublish (some t) none remote allComments categoryName
      title body labelPfx personas).1 = .ok outcome) :
    p ∈ outcome.skipped ∧ p ∉ outcome.published ∧
    (∀ w ∈ outcome.writes, w.1 ≠ p) ∧
    p ∈ scanComments (allComments.take commentsPageSize) labelPfx := by
  have hscan : p ∈ scanComments (allComments.take commentsPageSize) labelPfx :=
    (mem_scanComments _ _ _).mpr
      ⟨wireBody labelPfx p text, hmem,
        scanComment_wireBody labelPfx p text hpfx hp1 hp2 hp3⟩
  have hgd : getDiscussionBotComments (some t) none allComments labelPfx
      = (.ok (scanComments (allComments.take commentsPageSize) labelPfx),
        [RemoteCall.listCommentsQuery]) := by
    simp [getDiscussionBotComments, createClient_some t ht]
  rcases hfd : findOrCreateDiscussion (some t) none remote categoryName title body
    with ⟨res, tr⟩
  unfold findOrCreateAndPublish at hok
  rw [hfd, hgd] at hok
  cases res with
  | error e => simp at hok
  | ok d =>
    obtain ⟨discId, discUrl⟩ := d
    replace hok : Except.ok
        (⟨discId, discUrl,
          (publishLoop (scanComments (allComments.take commentsPageSize) labelPfx)
            labelPfx personas).published,
          (publishLoop (scanComments (allComments.take commentsPageSize) labelPfx)
            labelPfx personas).skipped,
          (publishLoop (scanComments (allComments.take commentsPageSize) labelPfx)
            labelPfx personas).writes⟩ : PublishOutcome) = Except.ok outcome := hok
    rw [Except.ok.injEq] at hok
    subst hok
    refine ⟨?_, ?_, ?_, hscan⟩
    · exact publishLoop_skip_mem _ labelPfx p personas hscan hreq
    · exact publishLoop_pub_not_mem _ labelPfx p personas hscan
    · intro w hw hwp
      exact publishLoop_writes_not_scanned _ labelPfx personas w hw (hwp ▸ hscan)

/-- Witness for C5: one requested persona `"A"` that already has a
wire-format comment on the page; it is skipped, nothing is published and
no write is issued. -/
theorem no_duplicate_persona_comments_witness :
    strL "A" ∈ (⟨strL "d1", strL "u1", [], [strL "A"], []⟩ : PublishOutcome).skipped ∧
    strL "A" ∉ (⟨strL "d1", strL "u1", [], [strL "A"], []⟩ : PublishOutcome).published ∧
    (∀ w ∈ (⟨strL "d1", strL "u1", [], [strL "A"], []⟩ : PublishOutcome).writes,
      w.1 ≠ strL "A") ∧
    strL "A" ∈ scanComments
      ([wireBody (strL "B") (strL "A") (strL "hi")].take commentsPageSize)
      (strL "B") :=
  no_duplicate_persona_comments (strL "tok") (by decide)
    ⟨[⟨strL "d1", strL "T", strL "u1"⟩], strL "R", [], strL "n", strL "nu"⟩
    [wireBody (strL "B") (strL "A") (strL "hi")]
    (strL "G") (strL "T") (strL "b") (strL "B") (strL "A") (strL "hi")
    [(strL "A", strL "hi")] ⟨strL "d1", strL "u1", [], [strL "A"], []⟩
    (by decide) (by decide) (by decide) (by decide) (by decide) (by decide)
    (by decide)

end GiscusBot
